import Mathlib

/-!
# Verification of the SB3.1 command codec and the Pemicro debug-probe scan

Shallow embedding of the spsdk SB3.1 secure-boot command codec
(spsdk.sbfile.sb31.commands / functions / constants) and of the
access-port scan of spsdk.debuggers.debug_probe_pemicro, together with
theorems about the round-trip, alignment, tag-validation, dispatch and
scan behaviour.

Buffers are lists of byte values (Nat, each below 256); 32-bit machine
integers are Nat with explicit bounds below 2 to the 32.
-/

namespace Spsdk

/-! ## Byte-level utilities (little-endian 32-bit words) -/

/-- Little-endian encoding of a 32-bit value into four bytes, as done by
the pack format with key letter L (little endian, 4 bytes). -/
def u32le (x : Nat) : List Nat :=
  [x % 2 ^ 8, x / 2 ^ 8 % 2 ^ 8, x / 2 ^ 16 % 2 ^ 8, x / 2 ^ 24 % 2 ^ 8]

/-- Assemble up to four leading bytes of a list into a little-endian value. -/
def le4ToNat : List Nat → Nat
  | [] => 0
  | [b0] => b0
  | [b0, b1] => b0 + 2 ^ 8 * b1
  | [b0, b1, b2] => b0 + 2 ^ 8 * b1 + 2 ^ 16 * b2
  | b0 :: b1 :: b2 :: b3 :: _ => b0 + 2 ^ 8 * b1 + 2 ^ 16 * b2 + 2 ^ 24 * b3

/-- Read the little-endian 32-bit value stored at a byte offset of a buffer,
as done by unpack_from with format L. -/
def readU32 (data : List Nat) (offset : Nat) : Nat :=
  le4ToNat (data.drop offset)

/-- Read a run of little-endian 32-bit words from the front of a buffer. -/
def readWords (data : List Nat) : Nat → List Nat
  | 0 => []
  | n + 1 => readU32 data 0 :: readWords (data.drop 4) n

theorem le4_u32le (x : Nat) (r : List Nat) (h : x < 2 ^ 32) :
    le4ToNat (u32le x ++ r) = x := by
  simp only [u32le, List.cons_append, List.nil_append, le4ToNat]
  omega

theorem readU32_here (x : Nat) (r : List Nat) (h : x < 2 ^ 32) :
    readU32 (u32le x ++ r) 0 = x := by
  simp only [readU32, List.drop_zero]
  exact le4_u32le x r h

theorem length_u32le (x : Nat) : (u32le x).length = 4 := rfl

theorem take_len_append {α : Type} (l r : List α) : (l ++ r).take l.length = l := by
  induction l with
  | nil => rfl
  | cons a l ih => simp [ih]

theorem readWords_join (ws : List Nat) (h : ∀ w ∈ ws, w < 2 ^ 32) :
    readWords (List.flatten (List.map u32le ws)) ws.length = ws := by
  induction ws with
  | nil => rfl
  | cons w ws ih =>
    simp only [List.map_cons, List.flatten_cons, List.length_cons]
    rw [readWords]
    have hdrop : (u32le w ++ List.flatten (List.map u32le ws)).drop 4 =
        List.flatten (List.map u32le ws) := rfl
    rw [hdrop, readU32_here w _ (h w (by simp)), ih (fun u hu => h u (by simp [hu]))]

theorem length_join_u32le (ws : List Nat) :
    (List.flatten (List.map u32le ws)).length = 4 * ws.length := by
  induction ws with
  | nil => rfl
  | cons w ws ih =>
    simp only [List.map_cons, List.flatten_cons, List.length_append, List.length_cons, ih,
      length_u32le]
    ring

/-! ## Errors of the codec

Modelled from the spec: the error-handling design distinguishes range,
tag-mismatch (including the dispatcher unknown-tag case), size/truncation
and offset errors; the dispatcher additionally asserts the 4-byte magic
signature before the registry lookup (the test on the all-zero one-unit
buffer pins this as an assertion error distinct from the unknown-tag
ValueError). -/
inductive SbErr where
  /-- Size/truncation failure: buffer shorter than the bytes to be decoded. -/
  | sizeError
  /-- Assertion failure of the 4-byte magic signature of a command record. -/
  | magicError
  /-- ValueError: the decoded tag does not match the variant doing the parse. -/
  | tagMismatch
  /-- ValueError of the dispatcher: the tag field names no registered variant. -/
  | unknownTag
  /-- ValueError: record decoded at an offset inconsistent with its size constraint. -/
  | offsetError
deriving DecidableEq

theorem except_bind_ok {α β : Type} (a : α) (f : α → Except SbErr β) :
    (Except.ok a).bind f = f a := rfl

theorem except_bind_error {α β : Type} (e : SbErr) (f : α → Except SbErr β) :
    (Except.error e : Except SbErr α).bind f = (Except.error e : Except SbErr β) := rfl

theorem except_map_ok {α β : Type} {f : α → β} {x : Except SbErr α} {b : β}
    (h : Except.map f x = Except.ok b) : ∃ a, x = Except.ok a ∧ b = f a := by
  cases x with
  | error e => exact absurd h (by simp [Except.map])
  | ok a => exact ⟨a, rfl, by simpa [Except.map] using h.symm⟩

/-! ## Command tags

Modelled from the spec: one small positive integer per variant, distinct and
stable; the values are pinned by the raw buffers of the dispatcher test. -/

namespace EnumCmdTag

def NONE : Nat := 0x00
def ERASE : Nat := 0x01
def LOAD : Nat := 0x02
def EXECUTE : Nat := 0x03
def CALL : Nat := 0x04
def PROGRAM_FUSES : Nat := 0x05
def PROGRAM_IFR : Nat := 0x06
def LOAD_CMAC : Nat := 0x07
def COPY : Nat := 0x08
def LOAD_HASH_LOCKING : Nat := 0x09
def LOAD_KEY_BLOB : Nat := 0x0A
def CONFIGURE_MEMORY : Nat := 0x0B
def FILL_MEMORY : Nat := 0x0C
def FW_VERSION_CHECK : Nat := 0x0D

end EnumCmdTag

namespace BaseCmd

/-- Modelled from the spec: the fixed 4-byte magic signature of every command
record; its little-endian bytes are 55 AA AA 55 as pinned by the tests. -/
def TAG : Nat := 0x55AAAA55

/-- Modelled from the spec: one header/alignment unit is 16 bytes. -/
def SIZE : Nat := 16

end BaseCmd

/-- Modelled from the spec: a command record is the fixed little-endian
header (magic signature, primary 32-bit field, secondary 32-bit field,
32-bit tag) followed by the payload bytes of the variant. -/
def mkRecord (primary secondary cmd_tag : Nat) (payload : List Nat) : List Nat :=
  u32le BaseCmd.TAG ++ (u32le primary ++ (u32le secondary ++ (u32le cmd_tag ++ payload)))

theorem length_mkRecord (p s t : Nat) (pl : List Nat) :
    (mkRecord p s t pl).length = 16 + pl.length := by
  simp only [mkRecord, List.length_append, length_u32le]
  omega

/-- Modelled from the spec: decode one header unit at the given offset; fail
with a size error if the buffer is shorter than one header unit past the
offset, assert the magic signature, assert the decoded tag equals the
expected tag of the variant doing the parse, and return the primary and
secondary field values. -/
def header_parse (expected_tag : Nat) (data : List Nat) (offset : Nat) :
    Except SbErr (Nat × Nat) :=
  if data.length < offset + 16 then Except.error SbErr.sizeError
  else if readU32 data offset = BaseCmd.TAG then
    if readU32 data (offset + 12) = expected_tag then
      Except.ok (readU32 data (offset + 4), readU32 data (offset + 8))
    else Except.error SbErr.tagMismatch
  else Except.error SbErr.magicError

theorem readU32_mk0 (p s t : Nat) (pl : List Nat) :
    readU32 (mkRecord p s t pl) 0 = BaseCmd.TAG :=
  readU32_here BaseCmd.TAG _ (by norm_num [BaseCmd.TAG])

theorem readU32_mk4 (p s t : Nat) (pl : List Nat) (hp : p < 2 ^ 32) :
    readU32 (mkRecord p s t pl) (0 + 4) = p := by
  have e : readU32 (mkRecord p s t pl) (0 + 4)
      = le4ToNat (u32le p ++ (u32le s ++ (u32le t ++ pl))) := rfl
  rw [e]
  exact le4_u32le p _ hp

theorem readU32_mk8 (p s t : Nat) (pl : List Nat) (hs : s < 2 ^ 32) :
    readU32 (mkRecord p s t pl) (0 + 8) = s := by
  have e : readU32 (mkRecord p s t pl) (0 + 8)
      = le4ToNat (u32le s ++ (u32le t ++ pl)) := rfl
  rw [e]
  exact le4_u32le s _ hs

theorem readU32_mk12 (p s t : Nat) (pl : List Nat) (ht : t < 2 ^ 32) :
    readU32 (mkRecord p s t pl) (0 + 12) = t := by
  have e : readU32 (mkRecord p s t pl) (0 + 12)
      = le4ToNat (u32le t ++ pl) := rfl
  rw [e]
  exact le4_u32le t pl ht

theorem drop_mk16 (p s t : Nat) (pl : List Nat) :
    (mkRecord p s t pl).drop (0 + 16) = pl := rfl

theorem header_parse_ok (expected p s : Nat) (pl : List Nat)
    (hp : p < 2 ^ 32) (hs : s < 2 ^ 32) (he : expected < 2 ^ 32) :
    header_parse expected (mkRecord p s expected pl) 0 = Except.ok (p, s) := by
  unfold header_parse
  have h0 : ¬ ((mkRecord p s expected pl).length < 0 + 16) := by
    rw [length_mkRecord]; omega
  rw [if_neg h0, readU32_mk0, if_pos rfl, readU32_mk12 p s expected pl he, if_pos rfl,
    readU32_mk4 p s expected pl hp, readU32_mk8 p s expected pl hs]

theorem header_parse_wrong_tag (expected p s t : Nat) (pl : List Nat)
    (h32 : t < 2 ^ 32) (hne : t ≠ expected) :
    header_parse expected (mkRecord p s t pl) 0 = Except.error SbErr.tagMismatch := by
  unfold header_parse
  have h0 : ¬ ((mkRecord p s t pl).length < 0 + 16) := by
    rw [length_mkRecord]; omega
  rw [if_neg h0, readU32_mk0, if_pos rfl, readU32_mk12 p s t pl h32, if_neg hne]

/-! ## Command variants

Modelled from the spec: one type per command kind, each owning its tag
constant, its header field mapping and its optional variable-length payload.
Scalar fields are unsigned 32-bit values kept as Nat; the cmd_tag field is
set by each constructor and may be overwritten afterwards (the negative
tests do exactly that), so it is an ordinary field of each record type. -/

/-- Modelled from the spec: Erase region command; primary field is the
address, secondary the length, the memory id sits in the following 16-byte
block. -/
structure CmdErase where
  address : Nat
  length : Nat
  memory_id : Nat
  cmd_tag : Nat
deriving DecidableEq

/-- Constructor of CmdErase: sets the tag of the variant. -/
def CmdErase.new (address length memory_id : Nat) : CmdErase :=
  ⟨address, length, memory_id, EnumCmdTag.ERASE⟩

abbrev CmdErase.valid (c : CmdErase) : Prop :=
  c.address < 2 ^ 32 ∧ c.length < 2 ^ 32 ∧ c.memory_id < 2 ^ 32 ∧
    c.cmd_tag = EnumCmdTag.ERASE

def CmdErase.export (c : CmdErase) : List Nat :=
  mkRecord c.address c.length c.cmd_tag (u32le c.memory_id ++ List.replicate 12 0)

def CmdErase.parse (data : List Nat) (offset : Nat := 0) : Except SbErr CmdErase :=
  (header_parse EnumCmdTag.ERASE data offset).bind (fun al =>
    if data.length < offset + 32 then Except.error SbErr.sizeError
    else Except.ok ⟨al.1, al.2, readU32 data (offset + 16), EnumCmdTag.ERASE⟩)

/-- Modelled from the spec: Load command; primary field is the address,
secondary the length, the memory id sits in the following 16-byte block. -/
structure CmdLoad where
  address : Nat
  length : Nat
  memory_id : Nat
  cmd_tag : Nat
deriving DecidableEq

def CmdLoad.new (address length memory_id : Nat) : CmdLoad :=
  ⟨address, length, memory_id, EnumCmdTag.LOAD⟩

abbrev CmdLoad.valid (c : CmdLoad) : Prop :=
  c.address < 2 ^ 32 ∧ c.length < 2 ^ 32 ∧ c.memory_id < 2 ^ 32 ∧
    c.cmd_tag = EnumCmdTag.LOAD

def CmdLoad.export (c : CmdLoad) : List Nat :=
  mkRecord c.address c.length c.cmd_tag (u32le c.memory_id ++ List.replicate 12 0)

def CmdLoad.parse (data : List Nat) (offset : Nat := 0) : Except SbErr CmdLoad :=
  (header_parse EnumCmdTag.LOAD data offset).bind (fun al =>
    if data.length < offset + 32 then Except.error SbErr.sizeError
    else Except.ok ⟨al.1, al.2, readU32 data (offset + 16), EnumCmdTag.LOAD⟩)

/-- Modelled from the spec: Execute command; primary field is the address,
secondary unused, no payload: exactly one header unit. -/
structure CmdExecute where
  address : Nat
  cmd_tag : Nat
deriving DecidableEq

def CmdExecute.new (address : Nat) : CmdExecute :=
  ⟨address, EnumCmdTag.EXECUTE⟩

abbrev CmdExecute.valid (c : CmdExecute) : Prop :=
  c.address < 2 ^ 32 ∧ c.cmd_tag = EnumCmdTag.EXECUTE

def CmdExecute.export (c : CmdExecute) : List Nat :=
  mkRecord c.address 0 c.cmd_tag []

def CmdExecute.parse (data : List Nat) (offset : Nat := 0) : Except SbErr CmdExecute :=
  (header_parse EnumCmdTag.EXECUTE data offset).bind (fun al =>
    Except.ok ⟨al.1, EnumCmdTag.EXECUTE⟩)

/-- Modelled from the spec: Call command; primary field is the address,
secondary unused, no payload: exactly one header unit. -/
structure CmdCall where
  address : Nat
  cmd_tag : Nat
deriving DecidableEq

def CmdCall.new (address : Nat) : CmdCall :=
  ⟨address, EnumCmdTag.CALL⟩

abbrev CmdCall.valid (c : CmdCall) : Prop :=
  c.address < 2 ^ 32 ∧ c.cmd_tag = EnumCmdTag.CALL

def CmdCall.export (c : CmdCall) : List Nat :=
  mkRecord c.address 0 c.cmd_tag []

def CmdCall.parse (data : List Nat) (offset : Nat := 0) : Except SbErr CmdCall :=
  (header_parse EnumCmdTag.CALL data offset).bind (fun al =>
    Except.ok ⟨al.1, EnumCmdTag.CALL⟩)

/-- Modelled from the spec: ProgFuses command; primary field is the address,
secondary the element count of the payload, which is a sequence of 32-bit
little-endian words appended right after the header with no padding (the
test pins the exported size as one header unit plus four bytes per word). -/
structure CmdProgFuses where
  address : Nat
  data : List Nat
  cmd_tag : Nat
deriving DecidableEq

def CmdProgFuses.new (address : Nat) (data : List Nat) : CmdProgFuses :=
  ⟨address, data, EnumCmdTag.PROGRAM_FUSES⟩

/-- Derived length attribute of CmdProgFuses: the element count. -/
def CmdProgFuses.length (c : CmdProgFuses) : Nat := c.data.length

abbrev CmdProgFuses.valid (c : CmdProgFuses) : Prop :=
  c.address < 2 ^ 32 ∧ c.data.length < 2 ^ 32 ∧ (∀ w ∈ c.data, w < 2 ^ 32) ∧
    c.cmd_tag = EnumCmdTag.PROGRAM_FUSES

def CmdProgFuses.export (c : CmdProgFuses) : List Nat :=
  mkRecord c.address c.data.length c.cmd_tag (List.flatten (List.map u32le c.data))

def CmdProgFuses.parse (data : List Nat) (offset : Nat := 0) :
    Except SbErr CmdProgFuses :=
  (header_parse EnumCmdTag.PROGRAM_FUSES data offset).bind (fun al =>
    if data.length < offset + 16 + 4 * al.2 then Except.error SbErr.sizeError
    else Except.ok ⟨al.1, readWords (data.drop (offset + 16)) al.2,
      EnumCmdTag.PROGRAM_FUSES⟩)

/-- Modelled from the spec: ProgIfr command; primary field is the address,
secondary the byte length of the raw payload appended right after the header
with no padding (the test pins the exported size as one header unit plus the
payload length). -/
structure CmdProgIfr where
  address : Nat
  data : List Nat
  cmd_tag : Nat
deriving DecidableEq

def CmdProgIfr.new (address : Nat) (data : List Nat) : CmdProgIfr :=
  ⟨address, data, EnumCmdTag.PROGRAM_IFR⟩

abbrev CmdProgIfr.valid (c : CmdProgIfr) : Prop :=
  c.address < 2 ^ 32 ∧ c.data.length < 2 ^ 32 ∧ (∀ b ∈ c.data, b < 2 ^ 8) ∧
    c.cmd_tag = EnumCmdTag.PROGRAM_IFR

def CmdProgIfr.export (c : CmdProgIfr) : List Nat :=
  mkRecord c.address c.data.length c.cmd_tag c.data

def CmdProgIfr.parse (data : List Nat) (offset : Nat := 0) : Except SbErr CmdProgIfr :=
  (header_parse EnumCmdTag.PROGRAM_IFR data offset).bind (fun al =>
    if data.length < offset + 16 + al.2 then Except.error SbErr.sizeError
    else Except.ok ⟨al.1, (data.drop (offset + 16)).take al.2, EnumCmdTag.PROGRAM_IFR⟩)

/-- Modelled from the spec: LoadCmac command; primary field is the address,
secondary the length, memory id in the following 16-byte block. -/
structure CmdLoadCmac where
  address : Nat
  length : Nat
  memory_id : Nat
  cmd_tag : Nat
deriving DecidableEq

def CmdLoadCmac.new (address length memory_id : Nat) : CmdLoadCmac :=
  ⟨address, length, memory_id, EnumCmdTag.LOAD_CMAC⟩

abbrev CmdLoadCmac.valid (c : CmdLoadCmac) : Prop :=
  c.address < 2 ^ 32 ∧ c.length < 2 ^ 32 ∧ c.memory_id < 2 ^ 32 ∧
    c.cmd_tag = EnumCmdTag.LOAD_CMAC

def CmdLoadCmac.export (c : CmdLoadCmac) : List Nat :=
  mkRecord c.address c.length c.cmd_tag (u32le c.memory_id ++ List.replicate 12 0)

def CmdLoadCmac.parse (data : List Nat) (offset : Nat := 0) : Except SbErr CmdLoadCmac :=
  (header_parse EnumCmdTag.LOAD_CMAC data offset).bind (fun al =>
    if data.length < offset + 32 then Except.error SbErr.sizeError
    else Except.ok ⟨al.1, al.2, readU32 data (offset + 16), EnumCmdTag.LOAD_CMAC⟩)

/-- Modelled from the spec: Copy command; primary field is the source
address, secondary the length; the destination address and the source and
destination memory ids sit in the following 16-byte block. -/
structure CmdCopy where
  address : Nat
  length : Nat
  destination_address : Nat
  memory_id_from : Nat
  memory_id_to : Nat
  cmd_tag : Nat
deriving DecidableEq

def CmdCopy.new (address length destination_address memory_id_from memory_id_to : Nat) :
    CmdCopy :=
  ⟨address, length, destination_address, memory_id_from, memory_id_to, EnumCmdTag.COPY⟩

abbrev CmdCopy.valid (c : CmdCopy) : Prop :=
  c.address < 2 ^ 32 ∧ c.length < 2 ^ 32 ∧ c.destination_address < 2 ^ 32 ∧
    c.memory_id_from < 2 ^ 32 ∧ c.memory_id_to < 2 ^ 32 ∧ c.cmd_tag = EnumCmdTag.COPY

def CmdCopy.export (c : CmdCopy) : List Nat :=
  mkRecord c.address c.length c.cmd_tag
    (u32le c.destination_address ++ (u32le c.memory_id_from ++
      (u32le c.memory_id_to ++ u32le 0)))

def CmdCopy.parse (data : List Nat) (offset : Nat := 0) : Except SbErr CmdCopy :=
  (header_parse EnumCmdTag.COPY data offset).bind (fun al =>
    if data.length < offset + 32 then Except.error SbErr.sizeError
    else Except.ok ⟨al.1, al.2, readU32 data (offset + 16), readU32 data (offset + 20),
      readU32 data (offset + 24), EnumCmdTag.COPY⟩)

/-- Modelled from the spec: LoadHashLocking command; primary field is the
address, secondary the length, memory id in the following 16-byte block. -/
structure CmdLoadHashLocking where
  address : Nat
  length : Nat
  memory_id : Nat
  cmd_tag : Nat
deriving DecidableEq

def CmdLoadHashLocking.new (address length memory_id : Nat) : CmdLoadHashLocking :=
  ⟨address, length, memory_id, EnumCmdTag.LOAD_HASH_LOCKING⟩

abbrev CmdLoadHashLocking.valid (c : CmdLoadHashLocking) : Prop :=
  c.address < 2 ^ 32 ∧ c.length < 2 ^ 32 ∧ c.memory_id < 2 ^ 32 ∧
    c.cmd_tag = EnumCmdTag.LOAD_HASH_LOCKING

def CmdLoadHashLocking.export (c : CmdLoadHashLocking) : List Nat :=
  mkRecord c.address c.length c.cmd_tag (u32le c.memory_id ++ List.replicate 12 0)

def CmdLoadHashLocking.parse (data : List Nat) (offset : Nat := 0) :
    Except SbErr CmdLoadHashLocking :=
  (header_parse EnumCmdTag.LOAD_HASH_LOCKING data offset).bind (fun al =>
    if data.length < offset + 32 then Except.error SbErr.sizeError
    else Except.ok ⟨al.1, al.2, readU32 data (offset + 16),
      EnumCmdTag.LOAD_HASH_LOCKING⟩)

/-- Modelled from the spec: LoadKeyBlob command; the primary header field is
a composite whose low 16 bits hold the offset and whose high 16 bits hold
the key-wrap identifier, the secondary field holds the byte length of the
raw key-blob payload, which is zero-padded to the next 16-byte boundary
(the dispatcher test buffer pins the padded layout). -/
structure CmdLoadKeyBlob where
  offset : Nat
  key_wrap_id : Nat
  data : List Nat
  cmd_tag : Nat
deriving DecidableEq

/-- Key-wrap identifier constant of the internal NXP customer KEK. -/
def CmdLoadKeyBlob.NXP_CUST_KEK_INT_SK : Nat := 16

/-- Key-wrap identifier constant of the external NXP customer KEK. -/
def CmdLoadKeyBlob.NXP_CUST_KEK_EXT_SK : Nat := 17

def CmdLoadKeyBlob.new (offset key_wrap_id : Nat) (data : List Nat) : CmdLoadKeyBlob :=
  ⟨offset, key_wrap_id, data, EnumCmdTag.LOAD_KEY_BLOB⟩

/-- Derived length attribute of CmdLoadKeyBlob: the payload byte length. -/
def CmdLoadKeyBlob.length (c : CmdLoadKeyBlob) : Nat := c.data.length

abbrev CmdLoadKeyBlob.valid (c : CmdLoadKeyBlob) : Prop :=
  c.offset < 2 ^ 16 ∧ c.key_wrap_id < 2 ^ 16 ∧ c.data.length < 2 ^ 32 ∧
    (∀ b ∈ c.data, b < 2 ^ 8) ∧ c.cmd_tag = EnumCmdTag.LOAD_KEY_BLOB

def CmdLoadKeyBlob.export (c : CmdLoadKeyBlob) : List Nat :=
  mkRecord (c.offset + 2 ^ 16 * c.key_wrap_id) c.data.length c.cmd_tag
    (c.data ++ List.replicate ((16 - c.data.length % 16) % 16) 0)

def CmdLoadKeyBlob.parse (data : List Nat) (offset : Nat := 0) :
    Except SbErr CmdLoadKeyBlob :=
  (header_parse EnumCmdTag.LOAD_KEY_BLOB data offset).bind (fun al =>
    if data.length < offset + 16 + al.2 then Except.error SbErr.sizeError
    else Except.ok ⟨al.1 % 2 ^ 16, al.1 / 2 ^ 16, (data.drop (offset + 16)).take al.2,
      EnumCmdTag.LOAD_KEY_BLOB⟩)

/-- Modelled from the spec: ConfigureMemory command; primary field is the
address, secondary the memory id, nothing beyond the header unit. -/
structure CmdConfigureMemory where
  address : Nat
  memory_id : Nat
  cmd_tag : Nat
deriving DecidableEq

def CmdConfigureMemory.new (address memory_id : Nat) : CmdConfigureMemory :=
  ⟨address, memory_id, EnumCmdTag.CONFIGURE_MEMORY⟩

abbrev CmdConfigureMemory.valid (c : CmdConfigureMemory) : Prop :=
  c.address < 2 ^ 32 ∧ c.memory_id < 2 ^ 32 ∧ c.cmd_tag = EnumCmdTag.CONFIGURE_MEMORY

def CmdConfigureMemory.export (c : CmdConfigureMemory) : List Nat :=
  mkRecord c.address c.memory_id c.cmd_tag []

def CmdConfigureMemory.parse (data : List Nat) (offset : Nat := 0) :
    Except SbErr CmdConfigureMemory :=
  (header_parse EnumCmdTag.CONFIGURE_MEMORY data offset).bind (fun al =>
    Except.ok ⟨al.1, al.2, EnumCmdTag.CONFIGURE_MEMORY⟩)

/-- Modelled from the spec: FillMemory command; primary field is the
address, secondary the length, memory id in the following 16-byte block. -/
structure CmdFillMemory where
  address : Nat
  length : Nat
  memory_id : Nat
  cmd_tag : Nat
deriving DecidableEq

def CmdFillMemory.new (address length memory_id : Nat) : CmdFillMemory :=
  ⟨address, length, memory_id, EnumCmdTag.FILL_MEMORY⟩

abbrev CmdFillMemory.valid (c : CmdFillMemory) : Prop :=
  c.address < 2 ^ 32 ∧ c.length < 2 ^ 32 ∧ c.memory_id < 2 ^ 32 ∧
    c.cmd_tag = EnumCmdTag.FILL_MEMORY

def CmdFillMemory.export (c : CmdFillMemory) : List Nat :=
  mkRecord c.address c.length c.cmd_tag (u32le c.memory_id ++ List.replicate 12 0)

def CmdFillMemory.parse (data : List Nat) (offset : Nat := 0) :
    Except SbErr CmdFillMemory :=
  (header_parse EnumCmdTag.FILL_MEMORY data offset).bind (fun al =>
    if data.length < offset + 32 then Except.error SbErr.sizeError
    else Except.ok ⟨al.1, al.2, readU32 data (offset + 16), EnumCmdTag.FILL_MEMORY⟩)

/-- Modelled from the spec: FwVersionCheck command; primary field is the
version value, secondary the counter id, no payload. -/
structure CmdFwVersionCheck where
  value : Nat
  counter_id : Nat
  cmd_tag : Nat
deriving DecidableEq

/-- Counter-id constant of the nonsecure firmware version counter. -/
def CmdFwVersionCheck.NONSECURE : Nat := 1

/-- Counter-id constant of the secure firmware version counter. -/
def CmdFwVersionCheck.SECURE : Nat := 2

def CmdFwVersionCheck.new (value counter_id : Nat) : CmdFwVersionCheck :=
  ⟨value, counter_id, EnumCmdTag.FW_VERSION_CHECK⟩

abbrev CmdFwVersionCheck.valid (c : CmdFwVersionCheck) : Prop :=
  c.value < 2 ^ 32 ∧ c.counter_id < 2 ^ 32 ∧ c.cmd_tag = EnumCmdTag.FW_VERSION_CHECK

def CmdFwVersionCheck.export (c : CmdFwVersionCheck) : List Nat :=
  mkRecord c.value c.counter_id c.cmd_tag []

def CmdFwVersionCheck.parse (data : List Nat) (offset : Nat := 0) :
    Except SbErr CmdFwVersionCheck :=
  (header_parse EnumCmdTag.FW_VERSION_CHECK data offset).bind (fun al =>
    Except.ok ⟨al.1, al.2, EnumCmdTag.FW_VERSION_CHECK⟩)

/-- Modelled from the spec: section-header record; exactly one header unit
holding section uid, section type, length and a pad word in a fixed
little-endian layout, with no magic signature and no tag. -/
structure CmdSectionHeader where
  section_uid : Nat
  section_type : Nat
  length : Nat
  pad : Nat
deriving DecidableEq

/-- Size of the section-header record: one header unit of 16 bytes. -/
def CmdSectionHeader.SIZE : Nat := 16

def CmdSectionHeader.new (section_uid section_type length : Nat) : CmdSectionHeader :=
  ⟨section_uid, section_type, length, 0⟩

abbrev CmdSectionHeader.valid (s : CmdSectionHeader) : Prop :=
  s.section_uid < 2 ^ 32 ∧ s.section_type < 2 ^ 32 ∧ s.length < 2 ^ 32 ∧ s.pad < 2 ^ 32

def CmdSectionHeader.export (s : CmdSectionHeader) : List Nat :=
  u32le s.section_uid ++ (u32le s.section_type ++ (u32le s.length ++ u32le s.pad))

/-- Modelled from the spec: the section-header parse fails with a
range/offset error whenever one record unit does not fit into the buffer
past the given offset; in particular any non-zero offset on a buffer of
exactly one header unit is rejected. -/
def CmdSectionHeader.parse (data : List Nat) (offset : Nat := 0) :
    Except SbErr CmdSectionHeader :=
  if data.length < offset + CmdSectionHeader.SIZE then Except.error SbErr.offsetError
  else Except.ok ⟨readU32 data offset, readU32 data (offset + 4),
    readU32 data (offset + 8), readU32 data (offset + 12)⟩

/-! ## Tag registry and dispatcher -/

/-- Closed sum of the thirteen tagged command variants (the section header
is not dispatched by tag and therefore not a member of the registry). -/
inductive Command where
  | erase (c : CmdErase)
  | load (c : CmdLoad)
  | execute (c : CmdExecute)
  | call (c : CmdCall)
  | progFuses (c : CmdProgFuses)
  | progIfr (c : CmdProgIfr)
  | loadCmac (c : CmdLoadCmac)
  | copy (c : CmdCopy)
  | loadHashLocking (c : CmdLoadHashLocking)
  | loadKeyBlob (c : CmdLoadKeyBlob)
  | configureMemory (c : CmdConfigureMemory)
  | fillMemory (c : CmdFillMemory)
  | fwVersionCheck (c : CmdFwVersionCheck)
deriving DecidableEq

/-- Names of the thirteen variant kinds, used to state which class an
instance produced by the dispatcher belongs to. -/
inductive CmdKind where
  | eraseKind
  | loadKind
  | executeKind
  | callKind
  | progFusesKind
  | progIfrKind
  | loadCmacKind
  | copyKind
  | loadHashLockingKind
  | loadKeyBlobKind
  | configureMemoryKind
  | fillMemoryKind
  | fwVersionCheckKind
deriving DecidableEq

def Command.kind : Command → CmdKind
  | .erase _ => .eraseKind
  | .load _ => .loadKind
  | .execute _ => .executeKind
  | .call _ => .callKind
  | .progFuses _ => .progFusesKind
  | .progIfr _ => .progIfrKind
  | .loadCmac _ => .loadCmacKind
  | .copy _ => .copyKind
  | .loadHashLocking _ => .loadHashLockingKind
  | .loadKeyBlob _ => .loadKeyBlobKind
  | .configureMemory _ => .configureMemoryKind
  | .fillMemory _ => .fillMemoryKind
  | .fwVersionCheck _ => .fwVersionCheckKind

/-- The tag owned by the variant of a command. -/
def Command.tagOf : Command → Nat
  | .erase _ => EnumCmdTag.ERASE
  | .load _ => EnumCmdTag.LOAD
  | .execute _ => EnumCmdTag.EXECUTE
  | .call _ => EnumCmdTag.CALL
  | .progFuses _ => EnumCmdTag.PROGRAM_FUSES
  | .progIfr _ => EnumCmdTag.PROGRAM_IFR
  | .loadCmac _ => EnumCmdTag.LOAD_CMAC
  | .copy _ => EnumCmdTag.COPY
  | .loadHashLocking _ => EnumCmdTag.LOAD_HASH_LOCKING
  | .loadKeyBlob _ => EnumCmdTag.LOAD_KEY_BLOB
  | .configureMemory _ => EnumCmdTag.CONFIGURE_MEMORY
  | .fillMemory _ => EnumCmdTag.FILL_MEMORY
  | .fwVersionCheck _ => EnumCmdTag.FW_VERSION_CHECK

def Command.export : Command → List Nat
  | .erase c => c.export
  | .load c => c.export
  | .execute c => c.export
  | .call c => c.export
  | .progFuses c => c.export
  | .progIfr c => c.export
  | .loadCmac c => c.export
  | .copy c => c.export
  | .loadHashLocking c => c.export
  | .loadKeyBlob c => c.export
  | .configureMemory c => c.export
  | .fillMemory c => c.export
  | .fwVersionCheck c => c.export

def Command.valid : Command → Prop
  | .erase c => c.valid
  | .load c => c.valid
  | .execute c => c.valid
  | .call c => c.valid
  | .progFuses c => c.valid
  | .progIfr c => c.valid
  | .loadCmac c => c.valid
  | .copy c => c.valid
  | .loadHashLocking c => c.valid
  | .loadKeyBlob c => c.valid
  | .configureMemory c => c.valid
  | .fillMemory c => c.valid
  | .fwVersionCheck c => c.valid

instance : (c : Command) → Decidable (Command.valid c)
  | .erase c => inferInstanceAs (Decidable c.valid)
  | .load c => inferInstanceAs (Decidable c.valid)
  | .execute c => inferInstanceAs (Decidable c.valid)
  | .call c => inferInstanceAs (Decidable c.valid)
  | .progFuses c => inferInstanceAs (Decidable c.valid)
  | .progIfr c => inferInstanceAs (Decidable c.valid)
  | .loadCmac c => inferInstanceAs (Decidable c.valid)
  | .copy c => inferInstanceAs (Decidable c.valid)
  | .loadHashLocking c => inferInstanceAs (Decidable c.valid)
  | .loadKeyBlob c => inferInstanceAs (Decidable c.valid)
  | .configureMemory c => inferInstanceAs (Decidable c.valid)
  | .fillMemory c => inferInstanceAs (Decidable c.valid)
  | .fwVersionCheck c => inferInstanceAs (Decidable c.valid)

/-- Overwrite the cmd_tag field of a command after construction, as the
negative tests of the repository do. -/
def Command.withTag : Command → Nat → Command
  | .erase c, t => .erase { c with cmd_tag := t }
  | .load c, t => .load { c with cmd_tag := t }
  | .execute c, t => .execute { c with cmd_tag := t }
  | .call c, t => .call { c with cmd_tag := t }
  | .progFuses c, t => .progFuses { c with cmd_tag := t }
  | .progIfr c, t => .progIfr { c with cmd_tag := t }
  | .loadCmac c, t => .loadCmac { c with cmd_tag := t }
  | .copy c, t => .copy { c with cmd_tag := t }
  | .loadHashLocking c, t => .loadHashLocking { c with cmd_tag := t }
  | .loadKeyBlob c, t => .loadKeyBlob { c with cmd_tag := t }
  | .configureMemory c, t => .configureMemory { c with cmd_tag := t }
  | .fillMemory c, t => .fillMemory { c with cmd_tag := t }
  | .fwVersionCheck c, t => .fwVersionCheck { c with cmd_tag := t }

/-- Modelled from the spec: the tag registry, fixed at initialization; the
thirteen registered tag values. -/
def registered_tags : List Nat :=
  [EnumCmdTag.ERASE, EnumCmdTag.LOAD, EnumCmdTag.EXECUTE, EnumCmdTag.CALL,
   EnumCmdTag.PROGRAM_FUSES, EnumCmdTag.PROGRAM_IFR, EnumCmdTag.LOAD_CMAC,
   EnumCmdTag.COPY, EnumCmdTag.LOAD_HASH_LOCKING, EnumCmdTag.LOAD_KEY_BLOB,
   EnumCmdTag.CONFIGURE_MEMORY, EnumCmdTag.FILL_MEMORY, EnumCmdTag.FW_VERSION_CHECK]

/-- Modelled from the spec: registry lookup followed by delegation; an
unregistered tag fails with the unknown-tag ValueError. -/
def parse_variant (tag : Nat) (data : List Nat) (offset : Nat) : Except SbErr Command :=
  if tag = EnumCmdTag.ERASE then Except.map Command.erase (CmdErase.parse data offset)
  else if tag = EnumCmdTag.LOAD then Except.map Command.load (CmdLoad.parse data offset)
  else if tag = EnumCmdTag.EXECUTE then
    Except.map Command.execute (CmdExecute.parse data offset)
  else if tag = EnumCmdTag.CALL then Except.map Command.call (CmdCall.parse data offset)
  else if tag = EnumCmdTag.PROGRAM_FUSES then
    Except.map Command.progFuses (CmdProgFuses.parse data offset)
  else if tag = EnumCmdTag.PROGRAM_IFR then
    Except.map Command.progIfr (CmdProgIfr.parse data offset)
  else if tag = EnumCmdTag.LOAD_CMAC then
    Except.map Command.loadCmac (CmdLoadCmac.parse data offset)
  else if tag = EnumCmdTag.COPY then Except.map Command.copy (CmdCopy.parse data offset)
  else if tag = EnumCmdTag.LOAD_HASH_LOCKING then
    Except.map Command.loadHashLocking (CmdLoadHashLocking.parse data offset)
  else if tag = EnumCmdTag.LOAD_KEY_BLOB then
    Except.map Command.loadKeyBlob (CmdLoadKeyBlob.parse data offset)
  else if tag = EnumCmdTag.CONFIGURE_MEMORY then
    Except.map Command.configureMemory (CmdConfigureMemory.parse data offset)
  else if tag = EnumCmdTag.FILL_MEMORY then
    Except.map Command.fillMemory (CmdFillMemory.parse data offset)
  else if tag = EnumCmdTag.FW_VERSION_CHECK then
    Except.map Command.fwVersionCheck (CmdFwVersionCheck.parse data offset)
  else Except.error SbErr.unknownTag

/-- Modelled from the spec: the dispatcher; fail with a size error when the
buffer is shorter than one header unit past the offset, assert the magic
signature of the header (an assertion error, distinct from the unknown-tag
ValueError), read the tag field and delegate to the registered variant. -/
def parse_command (data : List Nat) (offset : Nat := 0) : Except SbErr Command :=
  if data.length < offset + 16 then Except.error SbErr.sizeError
  else if readU32 data offset = BaseCmd.TAG then
    parse_variant (readU32 data (offset + 12)) data offset
  else Except.error SbErr.magicError

/-! ## Round-trip lemmas, one per variant -/

theorem CmdErase_roundtrip (c : CmdErase) (h : c.valid) :
    CmdErase.parse c.export 0 = Except.ok c := by
  obtain ⟨ha, hl, hm, ht⟩ := h
  unfold CmdErase.parse CmdErase.export
  rw [ht, header_parse_ok EnumCmdTag.ERASE c.address c.length _ ha hl
    (by norm_num [EnumCmdTag.ERASE]), except_bind_ok]
  have hlen : ¬ ((mkRecord c.address c.length EnumCmdTag.ERASE
      (u32le c.memory_id ++ List.replicate 12 0)).length < 0 + 32) := by
    rw [length_mkRecord]; simp [u32le]
  rw [if_neg hlen]
  have h16 : readU32 (mkRecord c.address c.length EnumCmdTag.ERASE
      (u32le c.memory_id ++ List.replicate 12 0)) (0 + 16) = c.memory_id := by
    have e : readU32 (mkRecord c.address c.length EnumCmdTag.ERASE
        (u32le c.memory_id ++ List.replicate 12 0)) (0 + 16)
        = le4ToNat (u32le c.memory_id ++ List.replicate 12 0) := rfl
    rw [e]; exact le4_u32le _ _ hm
  rw [h16, ← ht]

theorem CmdLoad_roundtrip (c : CmdLoad) (h : c.valid) :
    CmdLoad.parse c.export 0 = Except.ok c := by
  obtain ⟨ha, hl, hm, ht⟩ := h
  unfold CmdLoad.parse CmdLoad.export
  rw [ht, header_parse_ok EnumCmdTag.LOAD c.address c.length _ ha hl
    (by norm_num [EnumCmdTag.LOAD]), except_bind_ok]
  have hlen : ¬ ((mkRecord c.address c.length EnumCmdTag.LOAD
      (u32le c.memory_id ++ List.replicate 12 0)).length < 0 + 32) := by
    rw [length_mkRecord]; simp [u32le]
  rw [if_neg hlen]
  have h16 : readU32 (mkRecord c.address c.length EnumCmdTag.LOAD
      (u32le c.memory_id ++ List.replicate 12 0)) (0 + 16) = c.memory_id := by
    have e : readU32 (mkRecord c.address c.length EnumCmdTag.LOAD
        (u32le c.memory_id ++ List.replicate 12 0)) (0 + 16)
        = le4ToNat (u32le c.memory_id ++ List.replicate 12 0) := rfl
    rw [e]; exact le4_u32le _ _ hm
  rw [h16, ← ht]

theorem CmdExecute_roundtrip (c : CmdExecute) (h : c.valid) :
    CmdExecute.parse c.export 0 = Except.ok c := by
  obtain ⟨ha, ht⟩ := h
  unfold CmdExecute.parse CmdExecute.export
  rw [ht, header_parse_ok EnumCmdTag.EXECUTE c.address 0 _ ha (by norm_num)
    (by norm_num [EnumCmdTag.EXECUTE]), except_bind_ok, ← ht]

theorem CmdCall_roundtrip (c : CmdCall) (h : c.valid) :
    CmdCall.parse c.export 0 = Except.ok c := by
  obtain ⟨ha, ht⟩ := h
  unfold CmdCall.parse CmdCall.export
  rw [ht, header_parse_ok EnumCmdTag.CALL c.address 0 _ ha (by norm_num)
    (by norm_num [EnumCmdTag.CALL]), except_bind_ok, ← ht]

theorem CmdProgFuses_roundtrip (c : CmdProgFuses) (h : c.valid) :
    CmdProgFuses.parse c.export 0 = Except.ok c := by
  obtain ⟨ha, hl, hw, ht⟩ := h
  unfold CmdProgFuses.parse CmdProgFuses.export
  rw [ht, header_parse_ok EnumCmdTag.PROGRAM_FUSES c.address c.data.length _ ha hl
    (by norm_num [EnumCmdTag.PROGRAM_FUSES])]
  simp only [except_bind_ok]
  have hlen : ¬ ((mkRecord c.address c.data.length EnumCmdTag.PROGRAM_FUSES
      (List.flatten (List.map u32le c.data))).length < 0 + 16 + 4 * c.data.length) := by
    rw [length_mkRecord, length_join_u32le]; omega
  rw [if_neg hlen]
  have hdrop : (mkRecord c.address c.data.length EnumCmdTag.PROGRAM_FUSES
      (List.flatten (List.map u32le c.data))).drop (0 + 16)
      = List.flatten (List.map u32le c.data) := rfl
  rw [hdrop, readWords_join c.data hw, ← ht]

theorem CmdProgIfr_roundtrip (c : CmdProgIfr) (h : c.valid) :
    CmdProgIfr.parse c.export 0 = Except.ok c := by
  obtain ⟨ha, hl, hb, ht⟩ := h
  unfold CmdProgIfr.parse CmdProgIfr.export
  rw [ht, header_parse_ok EnumCmdTag.PROGRAM_IFR c.address c.data.length _ ha hl
    (by norm_num [EnumCmdTag.PROGRAM_IFR])]
  simp only [except_bind_ok]
  have hlen : ¬ ((mkRecord c.address c.data.length EnumCmdTag.PROGRAM_IFR
      c.data).length < 0 + 16 + c.data.length) := by
    rw [length_mkRecord]; omega
  rw [if_neg hlen]
  have hdrop : (mkRecord c.address c.data.length EnumCmdTag.PROGRAM_IFR
      c.data).drop (0 + 16) = c.data := rfl
  rw [hdrop, List.take_length, ← ht]

theorem CmdLoadCmac_roundtrip (c : CmdLoadCmac) (h : c.valid) :
    CmdLoadCmac.parse c.export 0 = Except.ok c := by
  obtain ⟨ha, hl, hm, ht⟩ := h
  unfold CmdLoadCmac.parse CmdLoadCmac.export
  rw [ht, header_parse_ok EnumCmdTag.LOAD_CMAC c.address c.length _ ha hl
    (by norm_num [EnumCmdTag.LOAD_CMAC]), except_bind_ok]
  have hlen : ¬ ((mkRecord c.address c.length EnumCmdTag.LOAD_CMAC
      (u32le c.memory_id ++ List.replicate 12 0)).length < 0 + 32) := by
    rw [length_mkRecord]; simp [u32le]
  rw [if_neg hlen]
  have h16 : readU32 (mkRecord c.address c.length EnumCmdTag.LOAD_CMAC
      (u32le c.memory_id ++ List.replicate 12 0)) (0 + 16) = c.memory_id := by
    have e : readU32 (mkRecord c.address c.length EnumCmdTag.LOAD_CMAC
        (u32le c.memory_id ++ List.replicate 12 0)) (0 + 16)
        = le4ToNat (u32le c.memory_id ++ List.replicate 12 0) := rfl
    rw [e]; exact le4_u32le _ _ hm
  rw [h16, ← ht]

theorem CmdCopy_roundtrip (c : CmdCopy) (h : c.valid) :
    CmdCopy.parse c.export 0 = Except.ok c := by
  obtain ⟨ha, hl, hd, hf, hto, ht⟩ := h
  unfold CmdCopy.parse CmdCopy.export
  rw [ht, header_parse_ok EnumCmdTag.COPY c.address c.length _ ha hl
    (by norm_num [EnumCmdTag.COPY]), except_bind_ok]
  have hlen : ¬ ((mkRecord c.address c.length EnumCmdTag.COPY
      (u32le c.destination_address ++ (u32le c.memory_id_from ++
        (u32le c.memory_id_to ++ u32le 0)))).length < 0 + 32) := by
    rw [length_mkRecord]; simp [u32le]
  rw [if_neg hlen]
  have h16 : readU32 (mkRecord c.address c.length EnumCmdTag.COPY
      (u32le c.destination_address ++ (u32le c.memory_id_from ++
        (u32le c.memory_id_to ++ u32le 0)))) (0 + 16) = c.destination_address := by
    have e : readU32 (mkRecord c.address c.length EnumCmdTag.COPY
        (u32le c.destination_address ++ (u32le c.memory_id_from ++
          (u32le c.memory_id_to ++ u32le 0)))) (0 + 16)
        = le4ToNat (u32le c.destination_address ++ (u32le c.memory_id_from ++
          (u32le c.memory_id_to ++ u32le 0))) := rfl
    rw [e]; exact le4_u32le _ _ hd
  have h20 : readU32 (mkRecord c.address c.length EnumCmdTag.COPY
      (u32le c.destination_address ++ (u32le c.memory_id_from ++
        (u32le c.memory_id_to ++ u32le 0)))) (0 + 20) = c.memory_id_from := by
    have e : readU32 (mkRecord c.address c.length EnumCmdTag.COPY
        (u32le c.destination_address ++ (u32le c.memory_id_from ++
          (u32le c.memory_id_to ++ u32le 0)))) (0 + 20)
        = le4ToNat (u32le c.memory_id_from ++ (u32le c.memory_id_to ++ u32le 0)) := rfl
    rw [e]; exact le4_u32le _ _ hf
  have h24 : readU32 (mkRecord c.address c.length EnumCmdTag.COPY
      (u32le c.destination_address ++ (u32le c.memory_id_from ++
        (u32le c.memory_id_to ++ u32le 0)))) (0 + 24) = c.memory_id_to := by
    have e : readU32 (mkRecord c.address c.length EnumCmdTag.COPY
        (u32le c.destination_address ++ (u32le c.memory_id_from ++
          (u32le c.memory_id_to ++ u32le 0)))) (0 + 24)
        = le4ToNat (u32le c.memory_id_to ++ u32le 0) := rfl
    rw [e]; exact le4_u32le _ _ hto
  rw [h16, h20, h24, ← ht]

theorem CmdLoadHashLocking_roundtrip (c : CmdLoadHashLocking) (h : c.valid) :
    CmdLoadHashLocking.parse c.export 0 = Except.ok c := by
  obtain ⟨ha, hl, hm, ht⟩ := h
  unfold CmdLoadHashLocking.parse CmdLoadHashLocking.export
  rw [ht, header_parse_ok EnumCmdTag.LOAD_HASH_LOCKING c.address c.length _ ha hl
    (by norm_num [EnumCmdTag.LOAD_HASH_LOCKING]), except_bind_ok]
  have hlen : ¬ ((mkRecord c.address c.length EnumCmdTag.LOAD_HASH_LOCKING
      (u32le c.memory_id ++ List.replicate 12 0)).length < 0 + 32) := by
    rw [length_mkRecord]; simp [u32le]
  rw [if_neg hlen]
  have h16 : readU32 (mkRecord c.address c.length EnumCmdTag.LOAD_HASH_LOCKING
      (u32le c.memory_id ++ List.replicate 12 0)) (0 + 16) = c.memory_id := by
    have e : readU32 (mkRecord c.address c.length EnumCmdTag.LOAD_HASH_LOCKING
        (u32le c.memory_id ++ List.replicate 12 0)) (0 + 16)
        = le4ToNat (u32le c.memory_id ++ List.replicate 12 0) := rfl
    rw [e]; exact le4_u32le _ _ hm
  rw [h16, ← ht]

theorem CmdLoadKeyBlob_roundtrip (c : CmdLoadKeyBlob) (h : c.valid) :
    CmdLoadKeyBlob.parse c.export 0 = Except.ok c := by
  obtain ⟨hoff, hkw, hl, hb, ht⟩ := h
  unfold CmdLoadKeyBlob.parse CmdLoadKeyBlob.export
  rw [ht, header_parse_ok EnumCmdTag.LOAD_KEY_BLOB
    (c.offset + 2 ^ 16 * c.key_wrap_id) c.data.length _ (by omega) hl
    (by norm_num [EnumCmdTag.LOAD_KEY_BLOB])]
  simp only [except_bind_ok]
  have hlen : ¬ ((mkRecord (c.offset + 2 ^ 16 * c.key_wrap_id) c.data.length
      EnumCmdTag.LOAD_KEY_BLOB
      (c.data ++ List.replicate ((16 - c.data.length % 16) % 16) 0)).length
      < 0 + 16 + c.data.length) := by
    rw [length_mkRecord]
    simp only [List.length_append, List.length_replicate]
    omega
  rw [if_neg hlen]
  have hdrop : (mkRecord (c.offset + 2 ^ 16 * c.key_wrap_id) c.data.length
      EnumCmdTag.LOAD_KEY_BLOB
      (c.data ++ List.replicate ((16 - c.data.length % 16) % 16) 0)).drop (0 + 16)
      = c.data ++ List.replicate ((16 - c.data.length % 16) % 16) 0 := rfl
  rw [hdrop, take_len_append]
  have hmod : (c.offset + 2 ^ 16 * c.key_wrap_id) % 2 ^ 16 = c.offset := by omega
  have hdiv : (c.offset + 2 ^ 16 * c.key_wrap_id) / 2 ^ 16 = c.key_wrap_id := by omega
  rw [hmod, hdiv, ← ht]

theorem CmdConfigureMemory_roundtrip (c : CmdConfigureMemory) (h : c.valid) :
    CmdConfigureMemory.parse c.export 0 = Except.ok c := by
  obtain ⟨ha, hm, ht⟩ := h
  unfold CmdConfigureMemory.parse CmdConfigureMemory.export
  rw [ht, header_parse_ok EnumCmdTag.CONFIGURE_MEMORY c.address c.memory_id _ ha hm
    (by norm_num [EnumCmdTag.CONFIGURE_MEMORY]), except_bind_ok, ← ht]

theorem CmdFillMemory_roundtrip (c : CmdFillMemory) (h : c.valid) :
    CmdFillMemory.parse c.export 0 = Except.ok c := by
  obtain ⟨ha, hl, hm, ht⟩ := h
  unfold CmdFillMemory.parse CmdFillMemory.export
  rw [ht, header_parse_ok EnumCmdTag.FILL_MEMORY c.address c.length _ ha hl
    (by norm_num [EnumCmdTag.FILL_MEMORY]), except_bind_ok]
  have hlen : ¬ ((mkRecord c.address c.length EnumCmdTag.FILL_MEMORY
      (u32le c.memory_id ++ List.replicate 12 0)).length < 0 + 32) := by
    rw [length_mkRecord]; simp [u32le]
  rw [if_neg hlen]
  have h16 : readU32 (mkRecord c.address c.length EnumCmdTag.FILL_MEMORY
      (u32le c.memory_id ++ List.replicate 12 0)) (0 + 16) = c.memory_id := by
    have e : readU32 (mkRecord c.address c.length EnumCmdTag.FILL_MEMORY
        (u32le c.memory_id ++ List.replicate 12 0)) (0 + 16)
        = le4ToNat (u32le c.memory_id ++ List.replicate 12 0) := rfl
    rw [e]; exact le4_u32le _ _ hm
  rw [h16, ← ht]

theorem CmdFwVersionCheck_roundtrip (c : CmdFwVersionCheck) (h : c.valid) :
    CmdFwVersionCheck.parse c.export 0 = Except.ok c := by
  obtain ⟨hv, hc, ht⟩ := h
  unfold CmdFwVersionCheck.parse CmdFwVersionCheck.export
  rw [ht, header_parse_ok EnumCmdTag.FW_VERSION_CHECK c.value c.counter_id _ hv hc
    (by norm_num [EnumCmdTag.FW_VERSION_CHECK]), except_bind_ok, ← ht]

theorem CmdSectionHeader_roundtrip (s : CmdSectionHeader) (h : s.valid) :
    CmdSectionHeader.parse s.export 0 = Except.ok s := by
  obtain ⟨h1, h2, h3, h4⟩ := h
  unfold CmdSectionHeader.parse CmdSectionHeader.export
  have hlen : ¬ ((u32le s.section_uid ++ (u32le s.section_type ++
      (u32le s.length ++ u32le s.pad))).length < 0 + CmdSectionHeader.SIZE) := by
    simp [u32le, CmdSectionHeader.SIZE]
  rw [if_neg hlen]
  have e0 : readU32 (u32le s.section_uid ++ (u32le s.section_type ++
      (u32le s.length ++ u32le s.pad))) 0 = s.section_uid := readU32_here _ _ h1
  have e4 : readU32 (u32le s.section_uid ++ (u32le s.section_type ++
      (u32le s.length ++ u32le s.pad))) (0 + 4) = s.section_type := by
    have e : readU32 (u32le s.section_uid ++ (u32le s.section_type ++
        (u32le s.length ++ u32le s.pad))) (0 + 4)
        = le4ToNat (u32le s.section_type ++ (u32le s.length ++ u32le s.pad)) := rfl
    rw [e]; exact le4_u32le _ _ h2
  have e8 : readU32 (u32le s.section_uid ++ (u32le s.section_type ++
      (u32le s.length ++ u32le s.pad))) (0 + 8) = s.length := by
    have e : readU32 (u32le s.section_uid ++ (u32le s.section_type ++
        (u32le s.length ++ u32le s.pad))) (0 + 8)
        = le4ToNat (u32le s.length ++ u32le s.pad) := rfl
    rw [e]; exact le4_u32le _ _ h3
  have e12 : readU32 (u32le s.section_uid ++ (u32le s.section_type ++
      (u32le s.length ++ u32le s.pad))) (0 + 12) = s.pad := by
    have e : readU32 (u32le s.section_uid ++ (u32le s.section_type ++
        (u32le s.length ++ u32le s.pad))) (0 + 12)
        = le4ToNat (u32le s.pad) := rfl
    rw [e]
    simp only [u32le, le4ToNat]
    omega
  rw [e0, e4, e8, e12]

theorem parse_variant_unknown (tag : Nat) (data : List Nat) (offset : Nat)
    (h : tag ∉ registered_tags) :
    parse_variant tag data offset = Except.error SbErr.unknownTag := by
  simp only [registered_tags, List.mem_cons, List.not_mem_nil, or_false, not_or] at h
  obtain ⟨h1, h2, h3, h4, h5, h6, h7, h8, h9, h10, h11, h12, h13⟩ := h
  unfold parse_variant
  rw [if_neg h1, if_neg h2, if_neg h3, if_neg h4, if_neg h5, if_neg h6, if_neg h7,
    if_neg h8, if_neg h9, if_neg h10, if_neg h11, if_neg h12, if_neg h13]

/-! ## Pemicro debug probe: the debug-mailbox access-port scan

This part embeds DebugProbePemicro of
spsdk/debuggers/debug_probe_pemicro.py. The probe read is an oracle
function standing for PyPemicro read_ap_register, whose outcome is either
a 32-bit value or a raised PEMicroException. -/

/-- Outcome of one read_ap_register call of the vendor probe library:
either a register value or a raised PEMicroException. -/
inductive PemicroResult where
  | value (v : Nat)
  | exception
deriving DecidableEq

/-- State of a DebugProbePemicro instance: the pemicro member is none until
the probe has been opened, afterwards it is the register-read oracle
standing for the opened PyPemicro session. -/
structure DebugProbePemicro where
  pemicro : Option (Nat → Nat → PemicroResult)

/-- Outcome of the access-port scan: a raised DebugProbeNotOpenError, a
propagated PEMicroException (never produced, see the theorems), or the
returned index value. -/
inductive ProbeOutcome where
  | notOpenError
  | pemicroException
  | result (ix : Int)
deriving DecidableEq

/-- Modelled from the spec: APSEL shift of the base DebugProbe class (not
part of this excerpt); the standard coresight APSEL field starts at bit 24.
The theorems below do not depend on this value. -/
def APSEL_SHIFT : Nat := 24

/-- Modelled from the spec: APSEL plus APBANKSEL mask of the base
DebugProbe class (not part of this excerpt). The theorems below do not
depend on this value. -/
def APSEL_APBANKSEL : Nat := 0xFF0000F0

/-- Identification-register value identifying the debug mailbox access
port. -/
def idr_expected : Nat := 0x002A0000

/-- Fixed offset of the identification register. -/
def idr_address : Nat := 0xFC

/-- The address passed to read_ap_register for a candidate access-port
index, as computed inside the scan loop. -/
def apAddr (access_port_ix : Nat) : Nat :=
  idr_address ||| ((access_port_ix <<< APSEL_SHIFT) &&& APSEL_APBANKSEL)

/-- One candidate index matches when the read at its identification
register succeeds and returns the expected identifier value. -/
abbrev ap_idr_match (read : Nat → Nat → PemicroResult) (i : Nat) : Prop :=
  read i (apAddr i) = PemicroResult.value idr_expected

/-- The scan loop of the function searching the debug mailbox access port:
walk the candidate indices in increasing order; a read that raises
PEMicroException is caught and the scan continues with the next index; the
first index whose read value equals the expected identifier is returned;
when the fuel (the remaining range) runs out the not-found sentinel -1 is
returned. -/
def scan_from (read : Nat → Nat → PemicroResult) : Nat → Nat → Int
  | _, 0 => -1
  | ix, fuel + 1 =>
    match read ix (apAddr ix) with
    | .value ret => if ret = idr_expected then (ix : Int) else scan_from read (ix + 1) fuel
    | .exception => scan_from read (ix + 1) fuel

/-- The access-port locator: raises DebugProbeNotOpenError when the probe
is not open, otherwise scans access-port indices 0 through 255 and returns
the found index or -1. -/
def DebugProbePemicro._get_dmbox_ap (probe : DebugProbePemicro) : ProbeOutcome :=
  match probe.pemicro with
  | none => ProbeOutcome.notOpenError
  | some read => ProbeOutcome.result (scan_from read 0 256)

theorem scan_from_not_found (read : Nat → Nat → PemicroResult) (fuel : Nat) :
    ∀ start : Nat, (∀ i, start ≤ i → i < start + fuel → ¬ ap_idr_match read i) →
      scan_from read start fuel = -1 := by
  induction fuel with
  | zero => intro start _; rfl
  | succ n ih =>
    intro start h
    have hunf : scan_from read start (n + 1) =
        (match read start (apAddr start) with
         | .value ret => if ret = idr_expected then (start : Int)
           else scan_from read (start + 1) n
         | .exception => scan_from read (start + 1) n) := rfl
    rw [hunf]
    have hs : ¬ ap_idr_match read start := h start le_rfl (by omega)
    cases hr : read start (apAddr start) with
    | exception => exact ih (start + 1) (fun i h1 h2 => h i (by omega) (by omega))
    | value ret =>
      have hv : ¬ (ret = idr_expected) := by
        intro he
        subst he
        exact hs hr
      show (if ret = idr_expected then (start : Int) else scan_from read (start + 1) n) = -1
      rw [if_neg hv]
      exact ih (start + 1) (fun i h1 h2 => h i (by omega) (by omega))

theorem scan_from_found (read : Nat → Nat → PemicroResult) (fuel : Nat) :
    ∀ start i : Nat, start ≤ i → i < start + fuel → ap_idr_match read i →
      (∀ j, start ≤ j → j < i → ¬ ap_idr_match read j) →
      scan_from read start fuel = (i : Int) := by
  induction fuel with
  | zero => intro start i h1 h2 _ _; omega
  | succ n ih =>
    intro start i h1 h2 hm hb
    have hunf : scan_from read start (n + 1) =
        (match read start (apAddr start) with
         | .value ret => if ret = idr_expected then (start : Int)
           else scan_from read (start + 1) n
         | .exception => scan_from read (start + 1) n) := rfl
    rw [hunf]
    by_cases hsi : start = i
    · subst hsi
      rw [hm]
      simp
    · have hlt : start < i := lt_of_le_of_ne h1 hsi
      have hs : ¬ ap_idr_match read start := hb start le_rfl hlt
      cases hr : read start (apAddr start) with
      | exception =>
        exact ih (start + 1) i (by omega) (by omega) hm
          (fun j hj1 hj2 => hb j (by omega) hj2)
      | value ret =>
        have hv : ¬ (ret = idr_expected) := by
          intro he
          subst he
          exact hs hr
        show (if ret = idr_expected then (start : Int)
          else scan_from read (start + 1) n) = (i : Int)
        rw [if_neg hv]
        exact ih (start + 1) i (by omega) (by omega) hm
          (fun j hj1 hj2 => hb j (by omega) hj2)

/-! ## Concrete buffers of the repository tests -/

/-- The 32-byte buffer of the dispatcher test for the Erase command:
magic signature, address 100, length 0, tag 1, then the 16-byte memory-id
block of zeros. -/
def test_erase_data : List Nat :=
  [0x55, 0xAA, 0xAA, 0x55, 0x64, 0, 0, 0, 0, 0, 0, 0, 0x01, 0, 0, 0] ++
    List.replicate 16 0

/-- The first invalid buffer of the dispatcher error test: valid magic,
primary 100, secondary 9, tag field 0, which names no registered variant. -/
def test_invalid_tag_data : List Nat :=
  [0x55, 0xAA, 0xAA, 0x55, 0x64, 0, 0, 0, 0x09, 0, 0, 0, 0, 0, 0, 0]

/-! ## The claims -/

/-- C1: for every command variant and all valid field values, parsing the
bytes produced by export with the parser of the variant owning the tag of
the command yields a command equal to the original; in particular every
semantic field is recovered and the padding bytes carry no information.
The section-header record, which is not dispatched by tag, round-trips
through its own parser as well. -/
theorem C1_parse_export_roundtrip :
    (∀ c : Command, c.valid → parse_variant c.tagOf c.export 0 = Except.ok c) ∧
    (∀ s : CmdSectionHeader, s.valid →
      CmdSectionHeader.parse s.export 0 = Except.ok s) := by
  refine ⟨?_, fun s hv => CmdSectionHeader_roundtrip s hv⟩
  intro c hv
  cases c with
  | erase c =>
    show Except.map Command.erase (CmdErase.parse (CmdErase.export c) 0)
      = Except.ok (Command.erase c)
    rw [CmdErase_roundtrip c hv]
    rfl
  | load c =>
    show Except.map Command.load (CmdLoad.parse (CmdLoad.export c) 0)
      = Except.ok (Command.load c)
    rw [CmdLoad_roundtrip c hv]
    rfl
  | execute c =>
    show Except.map Command.execute (CmdExecute.parse (CmdExecute.export c) 0)
      = Except.ok (Command.execute c)
    rw [CmdExecute_roundtrip c hv]
    rfl
  | call c =>
    show Except.map Command.call (CmdCall.parse (CmdCall.export c) 0)
      = Except.ok (Command.call c)
    rw [CmdCall_roundtrip c hv]
    rfl
  | progFuses c =>
    show Except.map Command.progFuses (CmdProgFuses.parse (CmdProgFuses.export c) 0)
      = Except.ok (Command.progFuses c)
    rw [CmdProgFuses_roundtrip c hv]
    rfl
  | progIfr c =>
    show Except.map Command.progIfr (CmdProgIfr.parse (CmdProgIfr.export c) 0)
      = Except.ok (Command.progIfr c)
    rw [CmdProgIfr_roundtrip c hv]
    rfl
  | loadCmac c =>
    show Except.map Command.loadCmac (CmdLoadCmac.parse (CmdLoadCmac.export c) 0)
      = Except.ok (Command.loadCmac c)
    rw [CmdLoadCmac_roundtrip c hv]
    rfl
  | copy c =>
    show Except.map Command.copy (CmdCopy.parse (CmdCopy.export c) 0)
      = Except.ok (Command.copy c)
    rw [CmdCopy_roundtrip c hv]
    rfl
  | loadHashLocking c =>
    show Except.map Command.loadHashLocking
      (CmdLoadHashLocking.parse (CmdLoadHashLocking.export c) 0)
      = Except.ok (Command.loadHashLocking c)
    rw [CmdLoadHashLocking_roundtrip c hv]
    rfl
  | loadKeyBlob c =>
    show Except.map Command.loadKeyBlob
      (CmdLoadKeyBlob.parse (CmdLoadKeyBlob.export c) 0)
      = Except.ok (Command.loadKeyBlob c)
    rw [CmdLoadKeyBlob_roundtrip c hv]
    rfl
  | configureMemory c =>
    show Except.map Command.configureMemory
      (CmdConfigureMemory.parse (CmdConfigureMemory.export c) 0)
      = Except.ok (Command.configureMemory c)
    rw [CmdConfigureMemory_roundtrip c hv]
    rfl
  | fillMemory c =>
    show Except.map Command.fillMemory (CmdFillMemory.parse (CmdFillMemory.export c) 0)
      = Except.ok (Command.fillMemory c)
    rw [CmdFillMemory_roundtrip c hv]
    rfl
  | fwVersionCheck c =>
    show Except.map Command.fwVersionCheck
      (CmdFwVersionCheck.parse (CmdFwVersionCheck.export c) 0)
      = Except.ok (Command.fwVersionCheck c)
    rw [CmdFwVersionCheck_roundtrip c hv]
    rfl

/-- Witness of C1 at the Erase command of the repository test. -/
theorem C1_parse_export_roundtrip_witness :
    parse_variant (Command.tagOf (Command.erase (CmdErase.new 100 0 0)))
      (Command.export (Command.erase (CmdErase.new 100 0 0))) 0
      = Except.ok (Command.erase (CmdErase.new 100 0 0)) :=
  C1_parse_export_roundtrip.1 (Command.erase (CmdErase.new 100 0 0)) (by decide)

/-- C2 counterexample: the ProgFuses command of the repository test with
five 32-bit words exports 36 bytes, and 36 is not a multiple of 16, so the
claim that every exported length is a multiple of 16 is false. The test of
the repository pins exactly this size (one header unit plus four bytes per
word, no padding). -/
theorem C2_export_alignment_counterexample :
    (Command.export (Command.progFuses (CmdProgFuses.new 100 [0, 1, 2, 3, 4]))).length
      = 36 ∧ ¬ (36 % 16 = 0) :=
  ⟨rfl, by decide⟩

/-- C2 (amended): the exported byte length of every valid command of every
variant other than ProgFuses and ProgIfr is a multiple of the 16-byte
alignment unit (variable-length payloads of the key-blob variant are
zero-padded up to the next alignment boundary); the ProgFuses export is one
header unit plus four bytes per payload word and the ProgIfr export is one
header unit plus the payload byte length, both without padding. -/
theorem C2_export_alignment_amended :
    (∀ c : Command, c.valid → c.kind ≠ CmdKind.progFusesKind →
      c.kind ≠ CmdKind.progIfrKind → c.export.length % 16 = 0)
  ∧ (∀ c : CmdProgFuses, c.export.length = 16 + 4 * c.data.length)
  ∧ (∀ c : CmdProgIfr, c.export.length = 16 + c.data.length)
  ∧ (∀ s : CmdSectionHeader, s.export.length % 16 = 0) := by
  refine ⟨?_, ?_, ?_, ?_⟩
  · intro c hv hf hi
    cases c with
    | erase c =>
      show (CmdErase.export c).length % 16 = 0
      unfold CmdErase.export
      rw [length_mkRecord]
      simp [u32le]
    | load c =>
      show (CmdLoad.export c).length % 16 = 0
      unfold CmdLoad.export
      rw [length_mkRecord]
      simp [u32le]
    | execute c =>
      show (CmdExecute.export c).length % 16 = 0
      unfold CmdExecute.export
      rw [length_mkRecord]
      simp
    | call c =>
      show (CmdCall.export c).length % 16 = 0
      unfold CmdCall.export
      rw [length_mkRecord]
      simp
    | progFuses c => exact absurd rfl hf
    | progIfr c => exact absurd rfl hi
    | loadCmac c =>
      show (CmdLoadCmac.export c).length % 16 = 0
      unfold CmdLoadCmac.export
      rw [length_mkRecord]
      simp [u32le]
    | copy c =>
      show (CmdCopy.export c).length % 16 = 0
      unfold CmdCopy.export
      rw [length_mkRecord]
      simp [u32le]
    | loadHashLocking c =>
      show (CmdLoadHashLocking.export c).length % 16 = 0
      unfold CmdLoadHashLocking.export
      rw [length_mkRecord]
      simp [u32le]
    | loadKeyBlob c =>
      show (CmdLoadKeyBlob.export c).length % 16 = 0
      unfold CmdLoadKeyBlob.export
      rw [length_mkRecord]
      simp only [List.length_append, List.length_replicate]
      omega
    | configureMemory c =>
      show (CmdConfigureMemory.export c).length % 16 = 0
      unfold CmdConfigureMemory.export
      rw [length_mkRecord]
      simp
    | fillMemory c =>
      show (CmdFillMemory.export c).length % 16 = 0
      unfold CmdFillMemory.export
      rw [length_mkRecord]
      simp [u32le]
    | fwVersionCheck c =>
      show (CmdFwVersionCheck.export c).length % 16 = 0
      unfold CmdFwVersionCheck.export
      rw [length_mkRecord]
      simp
  · intro c
    unfold CmdProgFuses.export
    rw [length_mkRecord, length_join_u32le]
  · intro c
    unfold CmdProgIfr.export
    rw [length_mkRecord]
  · intro s
    simp [CmdSectionHeader.export, u32le]

/-- Witness of C2 (amended) at the Erase and ProgFuses commands of the
repository tests. -/
theorem C2_export_alignment_amended_witness :
    (Command.export (Command.erase (CmdErase.new 100 0 0))).length % 16 = 0
    ∧ (CmdProgFuses.export (CmdProgFuses.new 100 [0, 1, 2, 3, 4])).length = 16 + 4 * 5 :=
  ⟨C2_export_alignment_amended.1 (Command.erase (CmdErase.new 100 0 0)) (by decide)
      (by decide) (by decide),
    C2_export_alignment_amended.2.1 (CmdProgFuses.new 100 [0, 1, 2, 3, 4])⟩

/-- C3: for every command variant, overwriting the cmd_tag field with any
other registered tag before export makes the parse of the original variant
fail with the tag-mismatch ValueError; the tag is never silently coerced. -/
theorem C3_mutated_tag_rejected (c : Command) (t : Nat) (hv : c.valid)
    (ht : t ∈ registered_tags) (hne : t ≠ c.tagOf) :
    parse_variant c.tagOf ((c.withTag t).export) 0 = Except.error SbErr.tagMismatch := by
  have h32 : t < 2 ^ 32 := by
    have h13 : t ≤ 13 := by
      simp only [registered_tags, EnumCmdTag.ERASE, EnumCmdTag.LOAD, EnumCmdTag.EXECUTE,
        EnumCmdTag.CALL, EnumCmdTag.PROGRAM_FUSES, EnumCmdTag.PROGRAM_IFR,
        EnumCmdTag.LOAD_CMAC, EnumCmdTag.COPY, EnumCmdTag.LOAD_HASH_LOCKING,
        EnumCmdTag.LOAD_KEY_BLOB, EnumCmdTag.CONFIGURE_MEMORY, EnumCmdTag.FILL_MEMORY,
        EnumCmdTag.FW_VERSION_CHECK, List.mem_cons, List.not_mem_nil, or_false] at ht
      rcases ht with h | h | h | h | h | h | h | h | h | h | h | h | h <;> omega
    omega
  cases c with
  | erase c =>
    show Except.map Command.erase
      (CmdErase.parse (CmdErase.export ⟨c.address, c.length, c.memory_id, t⟩) 0)
      = Except.error SbErr.tagMismatch
    simp only [CmdErase.parse, CmdErase.export]
    rw [header_parse_wrong_tag EnumCmdTag.ERASE c.address c.length t _ h32 hne,
      except_bind_error]
    rfl
  | load c =>
    show Except.map Command.load
      (CmdLoad.parse (CmdLoad.export ⟨c.address, c.length, c.memory_id, t⟩) 0)
      = Except.error SbErr.tagMismatch
    simp only [CmdLoad.parse, CmdLoad.export]
    rw [header_parse_wrong_tag EnumCmdTag.LOAD c.address c.length t _ h32 hne,
      except_bind_error]
    rfl
  | execute c =>
    show Except.map Command.execute
      (CmdExecute.parse (CmdExecute.export ⟨c.address, t⟩) 0)
      = Except.error SbErr.tagMismatch
    simp only [CmdExecute.parse, CmdExecute.export]
    rw [header_parse_wrong_tag EnumCmdTag.EXECUTE c.address 0 t _ h32 hne,
      except_bind_error]
    rfl
  | call c =>
    show Except.map Command.call
      (CmdCall.parse (CmdCall.export ⟨c.address, t⟩) 0)
      = Except.error SbErr.tagMismatch
    simp only [CmdCall.parse, CmdCall.export]
    rw [header_parse_wrong_tag EnumCmdTag.CALL c.address 0 t _ h32 hne,
      except_bind_error]
    rfl
  | progFuses c =>
    show Except.map Command.progFuses
      (CmdProgFuses.parse (CmdProgFuses.export ⟨c.address, c.data, t⟩) 0)
      = Except.error SbErr.tagMismatch
    simp only [CmdProgFuses.parse, CmdProgFuses.export]
    rw [header_parse_wrong_tag EnumCmdTag.PROGRAM_FUSES c.address c.data.length t _
      h32 hne, except_bind_error]
    rfl
  | progIfr c =>
    show Except.map Command.progIfr
      (CmdProgIfr.parse (CmdProgIfr.export ⟨c.address, c.data, t⟩) 0)
      = Except.error SbErr.tagMismatch
    simp only [CmdProgIfr.parse, CmdProgIfr.export]
    rw [header_parse_wrong_tag EnumCmdTag.PROGRAM_IFR c.address c.data.length t _
      h32 hne, except_bind_error]
    rfl
  | loadCmac c =>
    show Except.map Command.loadCmac
      (CmdLoadCmac.parse (CmdLoadCmac.export ⟨c.address, c.length, c.memory_id, t⟩) 0)
      = Except.error SbErr.tagMismatch
    simp only [CmdLoadCmac.parse, CmdLoadCmac.export]
    rw [header_parse_wrong_tag EnumCmdTag.LOAD_CMAC c.address c.length t _ h32 hne,
      except_bind_error]
    rfl
  | copy c =>
    show Except.map Command.copy
      (CmdCopy.parse (CmdCopy.export ⟨c.address, c.length, c.destination_address,
        c.memory_id_from, c.memory_id_to, t⟩) 0)
      = Except.error SbErr.tagMismatch
    simp only [CmdCopy.parse, CmdCopy.export]
    rw [header_parse_wrong_tag EnumCmdTag.COPY c.address c.length t _ h32 hne,
      except_bind_error]
    rfl
  | loadHashLocking c =>
    show Except.map Command.loadHashLocking
      (CmdLoadHashLocking.parse
        (CmdLoadHashLocking.export ⟨c.address, c.length, c.memory_id, t⟩) 0)
      = Except.error SbErr.tagMismatch
    simp only [CmdLoadHashLocking.parse, CmdLoadHashLocking.export]
    rw [header_parse_wrong_tag EnumCmdTag.LOAD_HASH_LOCKING c.address c.length t _
      h32 hne, except_bind_error]
    rfl
  | loadKeyBlob c =>
    show Except.map Command.loadKeyBlob
      (CmdLoadKeyBlob.parse
        (CmdLoadKeyBlob.export ⟨c.offset, c.key_wrap_id, c.data, t⟩) 0)
      = Except.error SbErr.tagMismatch
    simp only [CmdLoadKeyBlob.parse, CmdLoadKeyBlob.export]
    rw [header_parse_wrong_tag EnumCmdTag.LOAD_KEY_BLOB
      (c.offset + 2 ^ 16 * c.key_wrap_id) c.data.length t _ h32 hne, except_bind_error]
    rfl
  | configureMemory c =>
    show Except.map Command.configureMemory
      (CmdConfigureMemory.parse
        (CmdConfigureMemory.export ⟨c.address, c.memory_id, t⟩) 0)
      = Except.error SbErr.tagMismatch
    simp only [CmdConfigureMemory.parse, CmdConfigureMemory.export]
    rw [header_parse_wrong_tag EnumCmdTag.CONFIGURE_MEMORY c.address c.memory_id t _
      h32 hne, except_bind_error]
    rfl
  | fillMemory c =>
    show Except.map Command.fillMemory
      (CmdFillMemory.parse (CmdFillMemory.export ⟨c.address, c.length, c.memory_id, t⟩) 0)
      = Except.error SbErr.tagMismatch
    simp only [CmdFillMemory.parse, CmdFillMemory.export]
    rw [header_parse_wrong_tag EnumCmdTag.FILL_MEMORY c.address c.length t _ h32 hne,
      except_bind_error]
    rfl
  | fwVersionCheck c =>
    show Except.map Command.fwVersionCheck
      (CmdFwVersionCheck.parse
        (CmdFwVersionCheck.export ⟨c.value, c.counter_id, t⟩) 0)
      = Except.error SbErr.tagMismatch
    simp only [CmdFwVersionCheck.parse, CmdFwVersionCheck.export]
    rw [header_parse_wrong_tag EnumCmdTag.FW_VERSION_CHECK c.value c.counter_id t _
      h32 hne, except_bind_error]
    rfl

/-- Witness of C3: the Erase command whose tag is overwritten with the Call
tag, as in the repository test, is rejected by the Erase parser. -/
theorem C3_mutated_tag_rejected_witness :
    parse_variant (Command.tagOf (Command.erase (CmdErase.new 0 0 0)))
      ((Command.withTag (Command.erase (CmdErase.new 0 0 0)) EnumCmdTag.CALL).export) 0
      = Except.error SbErr.tagMismatch :=
  C3_mutated_tag_rejected (Command.erase (CmdErase.new 0 0 0)) EnumCmdTag.CALL
    (by decide) (by decide) (by decide)

/-- The tag-to-variant ownership table exactly as enumerated by the claim,
used as the specification side of the dispatcher-correctness statement. -/
def spec_tag_to_kind (tag : Nat) : Option CmdKind :=
  if tag = 0x01 then some CmdKind.eraseKind
  else if tag = 0x02 then some CmdKind.loadKind
  else if tag = 0x03 then some CmdKind.executeKind
  else if tag = 0x04 then some CmdKind.callKind
  else if tag = 0x05 then some CmdKind.progFusesKind
  else if tag = 0x06 then some CmdKind.progIfrKind
  else if tag = 0x07 then some CmdKind.loadCmacKind
  else if tag = 0x08 then some CmdKind.copyKind
  else if tag = 0x09 then some CmdKind.loadHashLockingKind
  else if tag = 0x0A then some CmdKind.loadKeyBlobKind
  else if tag = 0x0B then some CmdKind.configureMemoryKind
  else if tag = 0x0C then some CmdKind.fillMemoryKind
  else if tag = 0x0D then some CmdKind.fwVersionCheckKind
  else none

/-- C4: whenever the dispatcher succeeds on a buffer, the returned command
is an instance of exactly the variant that owns the tag value read from the
tag field of the buffer, following the enumerated tag-to-variant table. -/
theorem C4_dispatcher_owns_tag (data : List Nat) (c : Command)
    (h : parse_command data 0 = Except.ok c) :
    spec_tag_to_kind (readU32 data 12) = some c.kind := by
  unfold parse_command at h
  simp only [Nat.zero_add] at h
  by_cases h1 : data.length < 16
  · rw [if_pos h1] at h
    exact absurd h (by simp)
  rw [if_neg h1] at h
  by_cases h2 : readU32 data 0 = BaseCmd.TAG
  case neg =>
    rw [if_neg h2] at h
    exact absurd h (by simp)
  rw [if_pos h2] at h
  unfold parse_variant at h
  by_cases t1 : readU32 data 12 = EnumCmdTag.ERASE
  · rw [if_pos t1] at h
    obtain ⟨a, _, rfl⟩ := except_map_ok h
    simp [spec_tag_to_kind, t1, EnumCmdTag.ERASE, Command.kind]
  rw [if_neg t1] at h
  by_cases t2 : readU32 data 12 = EnumCmdTag.LOAD
  · rw [if_pos t2] at h
    obtain ⟨a, _, rfl⟩ := except_map_ok h
    simp [spec_tag_to_kind, t2, EnumCmdTag.LOAD, Command.kind]
  rw [if_neg t2] at h
  by_cases t3 : readU32 data 12 = EnumCmdTag.EXECUTE
  · rw [if_pos t3] at h
    obtain ⟨a, _, rfl⟩ := except_map_ok h
    simp [spec_tag_to_kind, t3, EnumCmdTag.EXECUTE, Command.kind]
  rw [if_neg t3] at h
  by_cases t4 : readU32 data 12 = EnumCmdTag.CALL
  · rw [if_pos t4] at h
    obtain ⟨a, _, rfl⟩ := except_map_ok h
    simp [spec_tag_to_kind, t4, EnumCmdTag.CALL, Command.kind]
  rw [if_neg t4] at h
  by_cases t5 : readU32 data 12 = EnumCmdTag.PROGRAM_FUSES
  · rw [if_pos t5] at h
    obtain ⟨a, _, rfl⟩ := except_map_ok h
    simp [spec_tag_to_kind, t5, EnumCmdTag.PROGRAM_FUSES, Command.kind]
  rw [if_neg t5] at h
  by_cases t6 : readU32 data 12 = EnumCmdTag.PROGRAM_IFR
  · rw [if_pos t6] at h
    obtain ⟨a, _, rfl⟩ := except_map_ok h
    simp [spec_tag_to_kind, t6, EnumCmdTag.PROGRAM_IFR, Command.kind]
  rw [if_neg t6] at h
  by_cases t7 : readU32 data 12 = EnumCmdTag.LOAD_CMAC
  · rw [if_pos t7] at h
    obtain ⟨a, _, rfl⟩ := except_map_ok h
    simp [spec_tag_to_kind, t7, EnumCmdTag.LOAD_CMAC, Command.kind]
  rw [if_neg t7] at h
  by_cases t8 : readU32 data 12 = EnumCmdTag.COPY
  · rw [if_pos t8] at h
    obtain ⟨a, _, rfl⟩ := except_map_ok h
    simp [spec_tag_to_kind, t8, EnumCmdTag.COPY, Command.kind]
  rw [if_neg t8] at h
  by_cases t9 : readU32 data 12 = EnumCmdTag.LOAD_HASH_LOCKING
  · rw [if_pos t9] at h
    obtain ⟨a, _, rfl⟩ := except_map_ok h
    simp [spec_tag_to_kind, t9, EnumCmdTag.LOAD_HASH_LOCKING, Command.kind]
  rw [if_neg t9] at h
  by_cases t10 : readU32 data 12 = EnumCmdTag.LOAD_KEY_BLOB
  · rw [if_pos t10] at h
    obtain ⟨a, _, rfl⟩ := except_map_ok h
    simp [spec_tag_to_kind, t10, EnumCmdTag.LOAD_KEY_BLOB, Command.kind]
  rw [if_neg t10] at h
  by_cases t11 : readU32 data 12 = EnumCmdTag.CONFIGURE_MEMORY
  · rw [if_pos t11] at h
    obtain ⟨a, _, rfl⟩ := except_map_ok h
    simp [spec_tag_to_kind, t11, EnumCmdTag.CONFIGURE_MEMORY, Command.kind]
  rw [if_neg t11] at h
  by_cases t12 : readU32 data 12 = EnumCmdTag.FILL_MEMORY
  · rw [if_pos t12] at h
    obtain ⟨a, _, rfl⟩ := except_map_ok h
    simp [spec_tag_to_kind, t12, EnumCmdTag.FILL_MEMORY, Command.kind]
  rw [if_neg t12] at h
  by_cases t13 : readU32 data 12 = EnumCmdTag.FW_VERSION_CHECK
  · rw [if_pos t13] at h
    obtain ⟨a, _, rfl⟩ := except_map_ok h
    simp [spec_tag_to_kind, t13, EnumCmdTag.FW_VERSION_CHECK, Command.kind]
  rw [if_neg t13] at h
  exact absurd h (by simp)

/-- Witness of C4 at the concrete Erase buffer of the dispatcher test. -/
theorem C4_dispatcher_owns_tag_witness :
    spec_tag_to_kind (readU32 test_erase_data 12) = some CmdKind.eraseKind :=
  C4_dispatcher_owns_tag test_erase_data (Command.erase (CmdErase.new 100 0 0)) rfl

/-- C5: a buffer of at least one header unit carrying the magic signature
but a tag value that names no registered variant fails the dispatcher with
the unknown-tag ValueError, while a buffer shorter than one header unit
fails with the size error, a distinct error kind, so a caller can tell
truncated input from an unrecognized command. -/
theorem C5_dispatcher_unknown_vs_short :
    (∀ data : List Nat, data.length < 16 →
      parse_command data 0 = Except.error SbErr.sizeError)
  ∧ (∀ data : List Nat, 16 ≤ data.length → readU32 data 0 = BaseCmd.TAG →
      readU32 data 12 ∉ registered_tags →
      parse_command data 0 = Except.error SbErr.unknownTag)
  ∧ SbErr.sizeError ≠ SbErr.unknownTag := by
  refine ⟨?_, ?_, by decide⟩
  · intro data h
    unfold parse_command
    rw [if_pos (by omega)]
  · intro data hlen hmagic hmem
    unfold parse_command
    simp only [Nat.zero_add]
    rw [if_neg (by omega), if_pos hmagic]
    exact parse_variant_unknown _ _ _ hmem

/-- Witness of C5: an 8-byte buffer fails with the size error and the
16-byte unknown-tag buffer of the repository test fails with the
unknown-tag error. -/
theorem C5_dispatcher_unknown_vs_short_witness :
    parse_command (List.replicate 8 0) 0 = Except.error SbErr.sizeError
    ∧ parse_command test_invalid_tag_data 0 = Except.error SbErr.unknownTag :=
  ⟨C5_dispatcher_unknown_vs_short.1 (List.replicate 8 0) (by decide),
    C5_dispatcher_unknown_vs_short.2.1 test_invalid_tag_data (by decide) (by decide)
      (by decide)⟩

/-- C6: the section-header parse invoked with a non-zero offset on a buffer
of exactly one header unit always fails with the range/offset ValueError;
the record is only accepted at offset 0 of such a buffer. -/
theorem C6_section_header_nonzero_offset (data : List Nat) (offset : Nat)
    (hlen : data.length = 16) (hoff : offset ≠ 0) :
    CmdSectionHeader.parse data offset = Except.error SbErr.offsetError := by
  unfold CmdSectionHeader.parse
  rw [if_pos (by simp only [CmdSectionHeader.SIZE, hlen]; omega)]

/-- Witness of C6 at the buffer and the offset 50 of the repository test. -/
theorem C6_section_header_nonzero_offset_witness :
    CmdSectionHeader.parse (List.replicate 16 0) 50 = Except.error SbErr.offsetError :=
  C6_section_header_nonzero_offset (List.replicate 16 0) 50 (by decide) (by decide)

/-- C7: the Erase command with address 100, length 0 and memory id 0
exports exactly the 32-byte buffer beginning 55 AA AA 55 64 00 00 00
00 00 00 00 01 00 00 00 followed by sixteen zero bytes, and parsing that
buffer back yields address 100, length 0 and memory id 0. -/
theorem C7_erase_concrete_bytes :
    CmdErase.export (CmdErase.new 100 0 0)
      = [0x55, 0xAA, 0xAA, 0x55, 0x64, 0, 0, 0, 0, 0, 0, 0, 0x01, 0, 0, 0] ++
        List.replicate 16 0
    ∧ CmdErase.parse (CmdErase.export (CmdErase.new 100 0 0)) 0
      = Except.ok ⟨100, 0, 0, EnumCmdTag.ERASE⟩ :=
  ⟨rfl, rfl⟩

/-- C8: the LoadKeyBlob command packs the 16-bit offset into the low 16
bits and the key-wrap identifier into the high 16 bits of the primary
32-bit header field, stores the payload byte length in the secondary field,
and parsing the export recovers the same offset, key-wrap identifier and
raw key-blob bytes. -/
theorem C8_loadkeyblob_packing (off kw : Nat) (blob : List Nat)
    (hoff : off < 2 ^ 16) (hkw : kw < 2 ^ 16) (hlen : blob.length < 2 ^ 32)
    (hbytes : ∀ b ∈ blob, b < 2 ^ 8) :
    readU32 (CmdLoadKeyBlob.new off kw blob).export 4 % 2 ^ 16 = off
  ∧ readU32 (CmdLoadKeyBlob.new off kw blob).export 4 / 2 ^ 16 = kw
  ∧ readU32 (CmdLoadKeyBlob.new off kw blob).export 8 = blob.length
  ∧ CmdLoadKeyBlob.parse (CmdLoadKeyBlob.new off kw blob).export 0
      = Except.ok (CmdLoadKeyBlob.new off kw blob) := by
  have e4 : readU32 (CmdLoadKeyBlob.new off kw blob).export 4
      = le4ToNat (u32le (off + 2 ^ 16 * kw) ++ (u32le blob.length ++
        (u32le EnumCmdTag.LOAD_KEY_BLOB ++
          (blob ++ List.replicate ((16 - blob.length % 16) % 16) 0)))) := rfl
  have e8 : readU32 (CmdLoadKeyBlob.new off kw blob).export 8
      = le4ToNat (u32le blob.length ++ (u32le EnumCmdTag.LOAD_KEY_BLOB ++
          (blob ++ List.replicate ((16 - blob.length % 16) % 16) 0))) := rfl
  refine ⟨?_, ?_, ?_, ?_⟩
  · rw [e4, le4_u32le _ _ (by omega)]
    omega
  · rw [e4, le4_u32le _ _ (by omega)]
    omega
  · rw [e8, le4_u32le _ _ hlen]
  · exact CmdLoadKeyBlob_roundtrip (CmdLoadKeyBlob.new off kw blob)
      ⟨hoff, hkw, hlen, hbytes, rfl⟩

/-- Witness of C8 at the values of the repository test: offset 100,
key-wrap id 17, ten payload bytes of value 120. -/
theorem C8_loadkeyblob_packing_witness :
    readU32 (CmdLoadKeyBlob.new 100 CmdLoadKeyBlob.NXP_CUST_KEK_EXT_SK
      (List.replicate 10 120)).export 4 % 2 ^ 16 = 100
  ∧ readU32 (CmdLoadKeyBlob.new 100 CmdLoadKeyBlob.NXP_CUST_KEK_EXT_SK
      (List.replicate 10 120)).export 4 / 2 ^ 16 = CmdLoadKeyBlob.NXP_CUST_KEK_EXT_SK
  ∧ readU32 (CmdLoadKeyBlob.new 100 CmdLoadKeyBlob.NXP_CUST_KEK_EXT_SK
      (List.replicate 10 120)).export 8 = (List.replicate 10 (120 : Nat)).length
  ∧ CmdLoadKeyBlob.parse (CmdLoadKeyBlob.new 100 CmdLoadKeyBlob.NXP_CUST_KEK_EXT_SK
      (List.replicate 10 120)).export 0
      = Except.ok (CmdLoadKeyBlob.new 100 CmdLoadKeyBlob.NXP_CUST_KEK_EXT_SK
        (List.replicate 10 120)) :=
  C8_loadkeyblob_packing 100 CmdLoadKeyBlob.NXP_CUST_KEK_EXT_SK
    (List.replicate 10 120) (by decide) (by decide) (by decide) (by decide)

/-- C9: given an open probe, the access-port locator scans the candidate
indices 0 through 255 in increasing order, reading the identification
register of each index, and returns the first index whose read value equals
the identifier constant; when no index matches it returns the not-found
sentinel -1. -/
theorem C9_get_dmbox_ap_scan (probe : DebugProbePemicro)
    (read : Nat → Nat → PemicroResult) (hopen : probe.pemicro = some read) :
    (∀ i, i < 256 → ap_idr_match read i →
      (∀ j, j < i → ¬ ap_idr_match read j) →
      DebugProbePemicro._get_dmbox_ap probe = ProbeOutcome.result (i : Int))
  ∧ ((∀ i, i < 256 → ¬ ap_idr_match read i) →
      DebugProbePemicro._get_dmbox_ap probe = ProbeOutcome.result (-1)) := by
  constructor
  · intro i hi hm hb
    unfold DebugProbePemicro._get_dmbox_ap
    rw [hopen]
    show ProbeOutcome.result (scan_from read 0 256) = ProbeOutcome.result (i : Int)
    rw [scan_from_found read 256 0 i (by omega) (by omega) hm
      (fun j _ hj => hb j hj)]
  · intro hnone
    unfold DebugProbePemicro._get_dmbox_ap
    rw [hopen]
    show ProbeOutcome.result (scan_from read 0 256) = ProbeOutcome.result (-1)
    rw [scan_from_not_found read 256 0 (fun i _ hi => hnone i (by omega))]

/-- Witness of C9: with an oracle whose index 7 holds the expected
identifier value and every other index reads zero, the locator returns 7. -/
theorem C9_get_dmbox_ap_scan_witness :
    DebugProbePemicro._get_dmbox_ap
      ⟨some (fun i _ => if i = 7 then PemicroResult.value idr_expected
        else PemicroResult.value 0)⟩ = ProbeOutcome.result 7 :=
  (C9_get_dmbox_ap_scan
      ⟨some (fun i _ => if i = 7 then PemicroResult.value idr_expected
        else PemicroResult.value 0)⟩
      (fun i _ => if i = 7 then PemicroResult.value idr_expected
        else PemicroResult.value 0) rfl).1
    7 (by decide) (by decide) (by decide)

/-- C10: given an open probe, a PEMicroException raised while reading any
candidate index is caught inside the scan loop: the locator never
propagates a PEMicroException, the scan continues past failing indices up
to the first matching one, and when every index fails or mismatches the
full range is scanned and -1 is returned. -/
theorem C10_get_dmbox_ap_catches (probe : DebugProbePemicro)
    (read : Nat → Nat → PemicroResult) (hopen : probe.pemicro = some read) :
    DebugProbePemicro._get_dmbox_ap probe ≠ ProbeOutcome.pemicroException
  ∧ (∀ i, i < 256 → (∀ j, j < i → read j (apAddr j) = PemicroResult.exception) →
      ap_idr_match read i →
      DebugProbePemicro._get_dmbox_ap probe = ProbeOutcome.result (i : Int))
  ∧ ((∀ i, i < 256 → ¬ ap_idr_match read i) →
      DebugProbePemicro._get_dmbox_ap probe = ProbeOutcome.result (-1)) := by
  refine ⟨?_, ?_, ?_⟩
  · unfold DebugProbePemicro._get_dmbox_ap
    rw [hopen]
    intro hcontra
    exact ProbeOutcome.noConfusion hcontra
  · intro i hi hexc hm
    unfold DebugProbePemicro._get_dmbox_ap
    rw [hopen]
    show ProbeOutcome.result (scan_from read 0 256) = ProbeOutcome.result (i : Int)
    rw [scan_from_found read 256 0 i (by omega) (by omega) hm
      (fun j _ hj => by rw [ap_idr_match, hexc j hj]; simp)]
  · intro hnone
    unfold DebugProbePemicro._get_dmbox_ap
    rw [hopen]
    show ProbeOutcome.result (scan_from read 0 256) = ProbeOutcome.result (-1)
    rw [scan_from_not_found read 256 0 (fun i _ hi => hnone i (by omega))]

set_option maxRecDepth 4000 in
/-- Witness of C10: with an oracle that raises PEMicroException at every
index, the locator still returns, with the sentinel -1. -/
theorem C10_get_dmbox_ap_catches_witness :
    DebugProbePemicro._get_dmbox_ap ⟨some (fun _ _ => PemicroResult.exception)⟩
      ≠ ProbeOutcome.pemicroException
    ∧ DebugProbePemicro._get_dmbox_ap ⟨some (fun _ _ => PemicroResult.exception)⟩
      = ProbeOutcome.result (-1) :=
  ⟨(C10_get_dmbox_ap_catches ⟨some (fun _ _ => PemicroResult.exception)⟩
      (fun _ _ => PemicroResult.exception) rfl).1,
    (C10_get_dmbox_ap_catches ⟨some (fun _ _ => PemicroResult.exception)⟩
      (fun _ _ => PemicroResult.exception) rfl).2.2 (by decide)⟩

end Spsdk
